import Mathlib

/-!
Shallow embedding, in Lean 4, of the analytics core of the dashboard
application (domain entities, repository queries and service analytics).
Python floats are modelled as rationals, Python ints as integers and
timestamps as integers; Python dictionaries (which iterate in insertion
order) are modelled as association lists built by an order-preserving
accumulator.  Each definition mirrors one function of the source.
-/

namespace CW2

/-- Python truthiness of an optional float, as used by
`if incident.resolution_time_hours:` — `None` and `0.0` are falsy. -/
def pyTruthy : Option ℚ → Bool
  | none => false
  | some x => decide (x ≠ 0)

/-! ### Insertion-ordered grouping (Python dict accumulation)

The services build dictionaries keyed by category / staff / stage,
appending each value to the entry of its key and creating the entry at
the end of the dict on first sight of the key — exactly what the
`if k not in d: d[k] = []` then `d[k].append(v)` idiom does. -/

/-- Append value `v` under key `k`, preserving insertion order of keys. -/
def accAdd : List (String × List ℚ) → String → ℚ → List (String × List ℚ)
  | [], k, v => [(k, [v])]
  | (c, ts) :: rest, k, v =>
      if c = k then (c, ts ++ [v]) :: rest else (c, ts) :: accAdd rest k v

/-- Group a list of key–value pairs into an insertion-ordered association
list, one entry per key, values in encounter order. -/
def groupPairs (ps : List (String × ℚ)) : List (String × List ℚ) :=
  ps.foldl (fun a p => accAdd a p.1 p.2) []

/-- Values recorded under key `k` (empty list when the key is absent). -/
def getVals : List (String × List ℚ) → String → List ℚ
  | [], _ => []
  | (c, ts) :: rest, k => if c = k then ts else getVals rest k

/-- Python `max(items, key=lambda x: x[1])` on an association list:
left fold keeping the current best, replaced only on strict increase,
so the first maximal entry wins.  Returns a dummy on the empty list
(the sources only call it on non-empty dictionaries). -/
def pyMax2 (xs : List (String × ℚ)) : String × ℚ :=
  match xs with
  | [] => ("", 0)
  | x :: rest => rest.foldl (fun best y => if best.2 < y.2 then y else best) x

/-! ### Stable descending sort (Python `sorted(..., key=k, reverse=True)`)

Python's sort is stable; `reverse=True` keeps equal-key runs in their
original order.  The output is therefore the unique permutation that is
ordered by the total order "strictly larger key, or equal key and
earlier original index".  We realise it by decorating each element with
its index and running insertion sort with that total order. -/

/-- Total order used to model a stable descending key sort: larger key
first; on equal keys, smaller original index first. -/
def keyOrd {α : Type} (key : α → ℚ) (p q : ℕ × α) : Prop :=
  key q.2 < key p.2 ∨ (key p.2 = key q.2 ∧ p.1 ≤ q.1)

instance {α : Type} (key : α → ℚ) : DecidableRel (keyOrd key) := fun p q =>
  inferInstanceAs (Decidable (key q.2 < key p.2 ∨ (key p.2 = key q.2 ∧ p.1 ≤ q.1)))

instance {α : Type} (key : α → ℚ) : IsTotal (ℕ × α) (keyOrd key) where
  total p q := by
    rcases lt_trichotomy (key p.2) (key q.2) with h | h | h
    · exact Or.inr (Or.inl h)
    · rcases Nat.le_total p.1 q.1 with hle | hle
      · exact Or.inl (Or.inr ⟨h, hle⟩)
      · exact Or.inr (Or.inr ⟨h.symm, hle⟩)
    · exact Or.inl (Or.inl h)

instance {α : Type} (key : α → ℚ) : IsTrans (ℕ × α) (keyOrd key) where
  trans p q s hpq hqs := by
    rcases hpq with h1 | ⟨e1, i1⟩
    · rcases hqs with h2 | ⟨e2, _⟩
      · exact Or.inl (h2.trans h1)
      · exact Or.inl (e2 ▸ h1)
    · rcases hqs with h2 | ⟨e2, i2⟩
      · exact Or.inl (e1 ▸ h2)
      · exact Or.inr ⟨e1.trans e2, i1.trans i2⟩

/-- Index-decorated stable descending sort by `key`. -/
def pyKeySortDesc {α : Type} (key : α → ℚ) (xs : List α) : List (ℕ × α) :=
  xs.enum.insertionSort (keyOrd key)

/-- Python `sorted(xs, key=key, reverse=True)` (stable, descending). -/
def pySortedDesc {α : Type} (key : α → ℚ) (xs : List α) : List α :=
  (pyKeySortDesc key xs).map Prod.snd

/-! ### Entity: Dataset (`my_app/models/dataset.py`) -/

/-- Dataset entity; field names follow the dataclass. -/
structure Dataset where
  name : String
  department : String
  size_gb : ℚ
  rows_millions : ℚ
  upload_date : ℤ
  last_accessed : ℤ
  days_since_access : ℤ
  quality_status : String
  dependencies : ℤ
  access_frequency_30d : ℤ
  storage_cost_per_month : ℚ
  archive_score : Option ℚ := none
  deriving DecidableEq

/-- Validation performed by `Dataset.__post_init__`: invalid quality
status or negative size raise `ValueError`; no other field is checked. -/
def Dataset.post_init (d : Dataset) : Except String Dataset :=
  if d.quality_status ∉ ["Passed", "Failed", "Pending"] then
    .error "Invalid quality status"
  else if d.size_gb < 0 then
    .error "Size cannot be negative"
  else
    .ok d

/-- Archive score of `Dataset.calculate_archive_score`: returns the
score and the updated entity (the method assigns the score onto
`self.archive_score` before returning it). -/
def Dataset.calculate_archive_score (d : Dataset) : ℚ × Dataset :=
  let score : ℚ :=
    ((d.days_since_access : ℚ) / 180 * 0.4
      + (1 - (d.access_frequency_30d : ℚ) / 50) * 0.3
      + (1 - (d.dependencies : ℚ) / 5) * 0.2
      + d.size_gb / 500 * 0.1) * 100
  (score, { d with archive_score := some score })

/-! ### Entity: SecurityIncident (`my_app/models/incident.py`) -/

/-- Security incident entity. -/
structure SecurityIncident where
  date : ℤ
  threat_category : String
  severity : String
  status : String
  resolution_time_hours : Option ℚ := none
  deriving DecidableEq

/-! ### Entity: ITTicket (`my_app/models/it_ticket.py`) -/

/-- IT ticket entity; `stage_times` models the Python dict as an
association list in insertion order (dict keys are unique). -/
structure ITTicket where
  ticket_id : String
  assigned_staff : String
  priority : String
  created_date : ℤ
  status : String
  total_resolution_time_hours : ℚ
  resolution_date : Option ℤ := none
  stage_times : List (String × ℚ) := []
  deriving DecidableEq

/-- Validation performed by `ITTicket.__post_init__`. -/
def ITTicket.post_init (t : ITTicket) : Except String ITTicket :=
  if t.priority ∉ ["Critical", "High", "Medium", "Low"] then
    .error "Invalid priority"
  else if t.total_resolution_time_hours < 0 then
    .error "Resolution time cannot be negative"
  else
    .ok t

/-! ### SecurityIncidentService (`my_app/services/incident_service.py`) -/

/-- Result of `get_phishing_surge_analysis`. -/
structure SurgeAnalysis where
  recent_count : ℕ
  previous_count : ℕ
  surge_percentage : ℚ
  deriving DecidableEq

/-- Mirror of `SecurityIncidentService.get_phishing_surge_analysis`:
the snapshot is the repository's list, `now` stands for
`datetime.now()` and `days` for the window length. -/
def get_phishing_surge_analysis (incidents : List SecurityIncident)
    (now days : ℤ) : SurgeAnalysis :=
  let recent_date := now - days
  let previous_date := now - days * 2
  let recent_phishing := incidents.filter fun inc =>
    inc.threat_category == "Phishing" && decide (recent_date ≤ inc.date)
  let previous_phishing := incidents.filter fun inc =>
    inc.threat_category == "Phishing" && decide (previous_date ≤ inc.date)
      && decide (inc.date < recent_date)
  let recent_count := recent_phishing.length
  let previous_count := previous_phishing.length
  let surge_percentage : ℚ :=
    (((recent_count : ℚ) - (previous_count : ℚ)) / ((max previous_count 1 : ℕ) : ℚ)) * 100
  ⟨recent_count, previous_count, surge_percentage⟩

/-- Result of `get_resolution_bottleneck`. -/
structure ResolutionBottleneck where
  category : String
  avg_resolution_time : ℚ
  all_averages : List (String × ℚ)
  deriving DecidableEq

/-- Mirror of `SecurityIncidentService.get_resolution_bottleneck`:
restrict to status `Resolved`, accumulate resolution times per threat
category for incidents whose `resolution_time_hours` is truthy, and
take the per-category mean with Python `max` over the dict items. -/
def get_resolution_bottleneck (incidents : List SecurityIncident) :
    Option ResolutionBottleneck :=
  let resolved := incidents.filter fun i => i.status == "Resolved"
  if resolved.isEmpty then none
  else
    let category_times := resolved.foldl
      (fun acc inc =>
        if pyTruthy inc.resolution_time_hours then
          accAdd acc inc.threat_category (inc.resolution_time_hours.getD 0)
        else acc) []
    if category_times.isEmpty then none
    else
      let avg_times := category_times.map fun p => (p.1, p.2.sum / (p.2.length : ℚ))
      let longest := pyMax2 avg_times
      some ⟨longest.1, longest.2, avg_times⟩

/-! ### ITTicketService (`my_app/services/it_ticket_service.py`) -/

/-- Entry of the `performance_gap` dictionary of `get_staff_performance`. -/
structure PerformanceGap where
  staff : String
  avg_time : ℚ
  team_avg : ℚ
  gap_hours : ℚ
  gap_percentage : ℚ
  deriving DecidableEq

/-- Result of `get_staff_performance`; the early return for an empty
resolved set carries no `team_average` key, modelled by `none`. -/
structure StaffPerformance where
  staff_performance : List (String × ℚ)
  slowest_staff : Option PerformanceGap
  team_average : Option ℚ
  deriving DecidableEq

/-- Mirror of `ITTicketService.get_staff_performance`. -/
def get_staff_performance (tickets : List ITTicket) : StaffPerformance :=
  let resolved := tickets.filter fun t => t.status == "Resolved"
  if resolved.isEmpty then ⟨[], none, none⟩
  else
    let staff_times := groupPairs
      (resolved.map fun t => (t.assigned_staff, t.total_resolution_time_hours))
    let staff_avg := staff_times.map fun p => (p.1, p.2.sum / (p.2.length : ℚ))
    let slowest := pyMax2 staff_avg
    let team_avg := (staff_avg.map Prod.snd).sum / (staff_avg.length : ℚ)
    let gap := slowest.2 - team_avg
    let gap_pct := if 0 < team_avg then gap / team_avg * 100 else 0
    ⟨staff_avg, some ⟨slowest.1, slowest.2, team_avg, gap, gap_pct⟩, some team_avg⟩

/-- Result of `get_process_bottleneck`. -/
structure ProcessBottleneck where
  stage : String
  avg_time : ℚ
  total_time : ℚ
  percentage : ℚ
  all_stages : List (String × ℚ)
  deriving DecidableEq

/-- Mirror of `ITTicketService.get_process_bottleneck`: flatten every
ticket's `stage_times` into per-stage value lists (the code keeps a
running total and count per stage; the list of values carries the same
information in the same key order), take the stage of maximum mean and
its share of the total time. -/
def get_process_bottleneck (tickets : List ITTicket) : Option ProcessBottleneck :=
  if tickets.isEmpty then none
  else
    let ps := tickets.flatMap fun t => t.stage_times
    let groups := groupPairs ps
    if groups.isEmpty then none
    else
      let stage_averages := groups.map fun p => (p.1, p.2.sum / (p.2.length : ℚ))
      let b := pyMax2 stage_averages
      let btotal := (getVals groups b.1).sum
      let total_time := (groups.map fun g => g.2.sum).sum
      let percentage := if 0 < total_time then btotal / total_time * 100 else 0
      some ⟨b.1, b.2, btotal, percentage, stage_averages⟩

/-! ### DatasetService (`my_app/services/dataset_service.py`) -/

/-- Risk histogram of `get_dependency_analysis`. -/
structure RiskLevels where
  high : ℕ
  medium : ℕ
  low : ℕ
  deriving DecidableEq

/-- Result of `get_dependency_analysis`. -/
structure DependencyAnalysis where
  high_dependency_datasets : List Dataset
  risk_levels : RiskLevels
  deriving DecidableEq

/-- Mirror of `DatasetService.get_dependency_analysis`: top five by
dependency count (stable descending sort) and a risk histogram built by
one pass over the snapshot. -/
def get_dependency_analysis (datasets : List Dataset) : DependencyAnalysis :=
  let high_dependency := (pySortedDesc (fun d => (d.dependencies : ℚ)) datasets).take 5
  let risk := datasets.foldl
    (fun r d =>
      if 3 ≤ d.dependencies then { r with high := r.high + 1 }
      else if 1 ≤ d.dependencies then { r with medium := r.medium + 1 }
      else { r with low := r.low + 1 })
    ⟨0, 0, 0⟩
  ⟨high_dependency, risk⟩

/-! ### DatasetRepository (`my_app/repositories/dataset_repository.py`) -/

/-- Mirror of `DatasetRepository.get_top_consumers`. -/
def get_top_consumers (datasets : List Dataset) (limit : ℕ) : List Dataset :=
  (pySortedDesc (fun d => d.size_gb) datasets).take limit

/-- One step of the loop at the top of `get_archive_candidates`:
compute the archive score of a dataset whose score is still absent. -/
def fillScore (d : Dataset) : Dataset :=
  if d.archive_score = none then (d.calculate_archive_score).2 else d

/-- Mirror of `DatasetRepository.get_archive_candidates`: first the
in-place filling of missing scores over the snapshot, then a stable
descending sort by `x.archive_score or 0`.  Returns the candidate list
together with the updated snapshot (the loop mutates the repository's
entities). -/
def get_archive_candidates (datasets : List Dataset) (limit : ℕ) :
    List Dataset × List Dataset :=
  let ds := datasets.map fillScore
  ((pySortedDesc (fun d => d.archive_score.getD 0) ds).take limit, ds)

/-! ### Reference semantics of `get_all` (`return self._datasets.copy()`)

Both repositories return `self._datasets.copy()` from `get_all`.  To
state the aliasing claim we model a heap of Python list objects: cells
are addressed by index and hold lists of entity identities (a shallow
copy shares the element objects, so entity identities suffice). -/

/-- Heap of Python list objects; a cell holds the identities of the
entity objects the list refers to. -/
structure PyListHeap where
  cells : List (List ℕ)
  deriving DecidableEq

/-- Contents of the list object at address `a`. -/
def readCell (s : PyListHeap) (a : ℕ) : List ℕ :=
  s.cells.getD a []

/-- Mirror of `get_all`: allocate a fresh list object holding the same
element references as the repository's list (`list.copy()` is shallow)
and return its address. -/
def repo_get_all (s : PyListHeap) (repo : ℕ) : PyListHeap × ℕ :=
  (⟨s.cells ++ [readCell s repo]⟩, s.cells.length)

/-- Python `lst.append(x)` on the list object at address `a`. -/
def cellAppend (s : PyListHeap) (a : ℕ) (x : ℕ) : PyListHeap :=
  ⟨s.cells.set a (readCell s a ++ [x])⟩

/-- Python `lst.remove(x)` on the list object at address `a` (removes
the first occurrence). -/
def cellRemove (s : PyListHeap) (a : ℕ) (x : ℕ) : PyListHeap :=
  ⟨s.cells.set a ((readCell s a).erase x)⟩

/-- Mirror of `ITTicket.get_time_in_stage`: `self.stage_times.get(stage, 0.0)`. -/
def ITTicket.get_time_in_stage (t : ITTicket) (stage : String) : ℚ :=
  ((t.stage_times.find? fun p => p.1 == stage).map Prod.snd).getD 0

/-! ### Concrete example entities used in tests of the theorems below -/

/-- Baseline dataset used to build concrete examples by field update. -/
def exDataset : Dataset :=
  { name := "ds", department := "Ops", size_gb := 1, rows_millions := 1,
    upload_date := 0, last_accessed := 0, days_since_access := 10,
    quality_status := "Passed", dependencies := 1, access_frequency_30d := 2,
    storage_cost_per_month := 3 }

/-- Dataset with the four score inputs of the spec's first reference
point: 180 days since access, no accesses, no dependencies, 500 GB. -/
def exDatasetFull : Dataset :=
  { exDataset with days_since_access := 180, access_frequency_30d := 0, dependencies := 0, size_gb := 500 }

/-- Dataset with all four score inputs zero. -/
def exDatasetZero : Dataset :=
  { exDataset with days_since_access := 0, access_frequency_30d := 0, dependencies := 0, size_gb := 0 }

/-- Dataset with negative `dependencies`, `days_since_access` and
`access_frequency_30d` (none of which `__post_init__` validates). -/
def exDatasetNeg : Dataset :=
  { exDataset with dependencies := -1, days_since_access := -2, access_frequency_30d := -3 }

/-- Resolved baseline ticket used to build concrete examples. -/
def exTicket : ITTicket :=
  { ticket_id := "T1", assigned_staff := "A", priority := "Medium",
    created_date := 0, status := "Resolved", total_resolution_time_hours := 0 }

/-- Resolved phishing incident whose resolution time is present but `0.0`. -/
def exIncident : SecurityIncident :=
  { date := 0, threat_category := "Phishing", severity := "High",
    status := "Resolved", resolution_time_hours := some 0 }

/-- Resolved phishing incident with a nonzero resolution time. -/
def exIncidentR : SecurityIncident :=
  { exIncident with resolution_time_hours := some 4 }

/-- Ticket resolved by staff A in 10 hours. -/
def exTicketA1 : ITTicket := { exTicket with total_resolution_time_hours := 10 }

/-- Ticket resolved by staff A in 20 hours. -/
def exTicketA2 : ITTicket := { exTicket with total_resolution_time_hours := 20 }

/-- Ticket resolved by staff B in 5 hours. -/
def exTicketB : ITTicket :=
  { exTicket with assigned_staff := "B", total_resolution_time_hours := 5 }

/-- First 500 GB dataset of the top-consumers example. -/
def exD500a : Dataset := { exDataset with name := "d1", size_gb := 500 }

/-- The 100 GB dataset of the top-consumers example. -/
def exD100 : Dataset := { exDataset with name := "d2", size_gb := 100 }

/-- Second 500 GB dataset of the top-consumers example. -/
def exD500b : Dataset := { exDataset with name := "d3", size_gb := 500 }

/-- The 50 GB dataset of the top-consumers example. -/
def exD50 : Dataset := { exDataset with name := "d4", size_gb := 50 }

/-- Ticket that spent 10 hours in stage A. -/
def exTicketStage1 : ITTicket := { exTicket with stage_times := [("A", 10)] }

/-- Ticket whose `stage_times` carries a zero-valued entry for stage A. -/
def exTicketStage2 : ITTicket := { exTicket with stage_times := [("A", 0)] }

/-- Ticket whose `stage_times` carries a negative entry for stage A. -/
def exTicketStageNeg : ITTicket := { exTicket with stage_times := [("A", -1)] }

/-! ## Helper lemmas about the grouping accumulator -/

theorem getVals_accAdd (acc : List (String × List ℚ)) (k k' : String) (v : ℚ) :
    getVals (accAdd acc k v) k'
      = if k' = k then getVals acc k' ++ [v] else getVals acc k' := by
  induction acc with
  | nil =>
      by_cases h : k' = k
      · subst h; simp [accAdd, getVals]
      · simp [accAdd, getVals, h, Ne.symm h]
  | cons p rest ih =>
      obtain ⟨c, ts⟩ := p
      by_cases hck : c = k
      · subst hck
        by_cases h : k' = c
        · subst h; simp [accAdd, getVals]
        · simp [accAdd, getVals, h, Ne.symm h]
      · by_cases h : c = k'
        · subst h
          simp [accAdd, getVals, hck]
        · simp [accAdd, getVals, hck, h, ih]

theorem getVals_foldl (l : List (String × ℚ)) (acc : List (String × List ℚ))
    (k : String) :
    getVals (l.foldl (fun a p => accAdd a p.1 p.2) acc) k
      = getVals acc k ++ ((l.filter fun p => p.1 == k).map Prod.snd) := by
  induction l generalizing acc with
  | nil => simp
  | cons p rest ih =>
      by_cases h : p.1 = k
      · simp [List.filter_cons, h, ih, getVals_accAdd]
      · simp [List.filter_cons, h, ih, getVals_accAdd, Ne.symm h]

theorem getVals_groupPairs (ps : List (String × ℚ)) (k : String) :
    getVals (groupPairs ps) k = ((ps.filter fun p => p.1 == k).map Prod.snd) := by
  simpa [getVals] using getVals_foldl ps [] k

theorem accAdd_ne_nil (acc : List (String × List ℚ)) (k : String) (v : ℚ) :
    accAdd acc k v ≠ [] := by
  cases acc with
  | nil => simp [accAdd]
  | cons p rest => obtain ⟨c, ts⟩ := p; by_cases h : c = k <;> simp [accAdd, h]

theorem foldl_accAdd_ne_nil (l : List (String × ℚ)) (acc : List (String × List ℚ))
    (h : acc ≠ []) : l.foldl (fun a p => accAdd a p.1 p.2) acc ≠ [] := by
  induction l generalizing acc with
  | nil => simpa
  | cons p rest ih => exact ih _ (accAdd_ne_nil acc p.1 p.2)

theorem groupPairs_eq_nil_iff (ps : List (String × ℚ)) :
    groupPairs ps = [] ↔ ps = [] := by
  constructor
  · intro h
    cases ps with
    | nil => rfl
    | cons p rest =>
        exact absurd h (by
          simpa [groupPairs] using
            foldl_accAdd_ne_nil rest (accAdd [] p.1 p.2) (accAdd_ne_nil [] p.1 p.2))
  · rintro rfl; rfl

theorem accAdd_entry_ne_nil (acc : List (String × List ℚ)) (k : String) (v : ℚ)
    (h : ∀ e ∈ acc, e.2 ≠ ([] : List ℚ)) :
    ∀ e ∈ accAdd acc k v, e.2 ≠ ([] : List ℚ) := by
  induction acc with
  | nil => simp [accAdd]
  | cons p rest ih =>
      obtain ⟨c, ts⟩ := p
      by_cases hck : c = k
      · intro e he
        rcases List.mem_cons.mp (by simpa [accAdd, hck] using he) with rfl | hm
        · simp
        · exact h e (List.mem_cons_of_mem _ hm)
      · intro e he
        rcases List.mem_cons.mp (by simpa [accAdd, hck] using he) with rfl | hm
        · exact h (c, ts) (List.mem_cons_self _ _)
        · exact ih (fun e' he' => h e' (List.mem_cons_of_mem _ he')) e hm

theorem groupPairs_entry_ne_nil (ps : List (String × ℚ)) :
    ∀ e ∈ groupPairs ps, e.2 ≠ ([] : List ℚ) := by
  suffices h : ∀ (l : List (String × ℚ)) (acc : List (String × List ℚ)),
      (∀ e ∈ acc, e.2 ≠ ([] : List ℚ)) →
      ∀ e ∈ l.foldl (fun a p => accAdd a p.1 p.2) acc, e.2 ≠ ([] : List ℚ) by
    exact h ps [] (by simp)
  intro l
  induction l with
  | nil => intro acc hacc; simpa using hacc
  | cons p rest ih =>
      intro acc hacc
      exact ih _ (accAdd_entry_ne_nil acc p.1 p.2 hacc)

theorem accAdd_keys (acc : List (String × List ℚ)) (k : String) (v : ℚ) :
    (accAdd acc k v).map Prod.fst
      = if k ∈ acc.map Prod.fst then acc.map Prod.fst
        else acc.map Prod.fst ++ [k] := by
  induction acc with
  | nil => simp [accAdd]
  | cons p rest ih =>
      obtain ⟨c, ts⟩ := p
      by_cases hck : c = k
      · subst hck; simp [accAdd]
      · by_cases hk : k ∈ rest.map Prod.fst
        · simp [accAdd, hck, hk, ih, Ne.symm hck]
        · simp [accAdd, hck, hk, ih, Ne.symm hck]

theorem accAdd_keys_nodup (acc : List (String × List ℚ)) (k : String) (v : ℚ)
    (h : (acc.map Prod.fst).Nodup) : ((accAdd acc k v).map Prod.fst).Nodup := by
  rw [accAdd_keys]
  by_cases hk : k ∈ acc.map Prod.fst
  · simpa [hk]
  · rw [if_neg hk, List.nodup_append]
    exact ⟨h, List.nodup_singleton _, by simpa using hk⟩

theorem groupPairs_keys_nodup (ps : List (String × ℚ)) :
    ((groupPairs ps).map Prod.fst).Nodup := by
  suffices h : ∀ (l : List (String × ℚ)) (acc : List (String × List ℚ)),
      (acc.map Prod.fst).Nodup →
      ((l.foldl (fun a p => accAdd a p.1 p.2) acc).map Prod.fst).Nodup by
    exact h ps [] (by simp)
  intro l
  induction l with
  | nil => intro acc hacc; simpa using hacc
  | cons p rest ih =>
      intro acc hacc
      exact ih _ (accAdd_keys_nodup acc p.1 p.2 hacc)

theorem getVals_eq_of_mem (acc : List (String × List ℚ)) (k : String)
    (vs : List ℚ) (hnd : (acc.map Prod.fst).Nodup) (hm : (k, vs) ∈ acc) :
    getVals acc k = vs := by
  induction acc with
  | nil => cases hm
  | cons p rest ih =>
      obtain ⟨c, ts⟩ := p
      rw [List.map_cons] at hnd
      have hnd' := List.nodup_cons.mp hnd
      rcases List.mem_cons.mp hm with he | hm'
      · obtain ⟨rfl, rfl⟩ := Prod.mk.injEq .. ▸ he
        simp [getVals]
      · have hC : c ≠ k := by
          rintro rfl
          exact hnd'.1 (List.mem_map.mpr ⟨(c, vs), hm', rfl⟩)
        simp only [getVals, if_neg hC]
        exact ih hnd'.2 hm'

theorem mem_of_getVals_ne_nil (acc : List (String × List ℚ)) (k : String)
    (h : getVals acc k ≠ []) : (k, getVals acc k) ∈ acc := by
  induction acc with
  | nil => simp [getVals] at h
  | cons p rest ih =>
      obtain ⟨c, ts⟩ := p
      by_cases hck : c = k
      · subst hck
        simp [getVals]
      · simp only [getVals, if_neg hck] at h ⊢
        exact List.mem_cons_of_mem _ (ih h)

theorem mem_groupPairs_iff (ps : List (String × ℚ)) (k : String) (vs : List ℚ) :
    (k, vs) ∈ groupPairs ps
      ↔ vs = ((ps.filter fun p => p.1 == k).map Prod.snd) ∧ vs ≠ [] := by
  constructor
  · intro h
    have hv := getVals_eq_of_mem (groupPairs ps) k vs (groupPairs_keys_nodup ps) h
    refine ⟨?_, groupPairs_entry_ne_nil ps _ h⟩
    rw [← hv, getVals_groupPairs]
  · rintro ⟨rfl, hne⟩
    have h' : getVals (groupPairs ps) k ≠ [] := by
      rw [getVals_groupPairs]; exact hne
    have hmem := mem_of_getVals_ne_nil (groupPairs ps) k h'
    rwa [getVals_groupPairs] at hmem

theorem valsSum_accAdd (acc : List (String × List ℚ)) (k : String) (v : ℚ) :
    ((accAdd acc k v).map fun e => e.2.sum).sum
      = ((acc.map fun e => e.2.sum).sum) + v := by
  induction acc with
  | nil => simp [accAdd]
  | cons p rest ih =>
      obtain ⟨c, ts⟩ := p
      by_cases hck : c = k
      · simp [accAdd, hck]; ring
      · simp [accAdd, hck, ih]; ring

theorem valsSum_groupPairs (ps : List (String × ℚ)) :
    ((groupPairs ps).map fun e => e.2.sum).sum = (ps.map Prod.snd).sum := by
  suffices h : ∀ (l : List (String × ℚ)) (acc : List (String × List ℚ)),
      ((l.foldl (fun a p => accAdd a p.1 p.2) acc).map fun e => e.2.sum).sum
        = ((acc.map fun e => e.2.sum).sum) + (l.map Prod.snd).sum by
    simpa using h ps []
  intro l
  induction l with
  | nil => intro acc; simp
  | cons p rest ih =>
      intro acc
      simp only [List.foldl_cons, List.map_cons, List.sum_cons, ih, valsSum_accAdd]
      ring

/-! ## Helper lemmas about `pyMax2` -/

theorem pyMax2_foldl_spec (rest : List (String × ℚ)) :
    ∀ x : String × ℚ,
      (rest.foldl (fun best y => if best.2 < y.2 then y else best) x) ∈ x :: rest
      ∧ ∀ y ∈ x :: rest,
          y.2 ≤ (rest.foldl (fun best y => if best.2 < y.2 then y else best) x).2 := by
  induction rest with
  | nil => intro x; simp
  | cons z rest ih =>
      intro x
      have hmem : (if x.2 < z.2 then z else x) ∈ x :: z :: rest := by
        by_cases h : x.2 < z.2 <;> simp [h]
      have hx : x.2 ≤ (if x.2 < z.2 then z else x).2 := by
        by_cases h : x.2 < z.2 <;> simp [h]
        exact le_of_lt h
      have hz : z.2 ≤ (if x.2 < z.2 then z else x).2 := by
        by_cases h : x.2 < z.2 <;> simp [h]
        exact le_of_not_lt h
      obtain ⟨ihmem, ihle⟩ := ih (if x.2 < z.2 then z else x)
      constructor
      · rw [List.foldl_cons]
        rcases List.mem_cons.mp ihmem with he | hm
        · rw [he]; exact hmem
        · exact List.mem_cons_of_mem _ (List.mem_cons_of_mem _ hm)
      · intro y hy
        rw [List.foldl_cons]
        rcases List.mem_cons.mp hy with rfl | hy'
        · exact le_trans hx (ihle _ (List.mem_cons_self _ _))
        · rcases List.mem_cons.mp hy' with rfl | hy''
          · exact le_trans hz (ihle _ (List.mem_cons_self _ _))
          · exact ihle _ (List.mem_cons_of_mem _ hy'')

theorem pyMax2_spec (x : String × ℚ) (rest : List (String × ℚ)) :
    pyMax2 (x :: rest) ∈ x :: rest
      ∧ ∀ y ∈ x :: rest, y.2 ≤ (pyMax2 (x :: rest)).2 := by
  simpa [pyMax2] using pyMax2_foldl_spec rest x

/-! ## Claim C1 — archive score formula at the two reference inputs -/

/-- C1 counterexample: the claim says the archive score of an all-zero
dataset is 0, but `calculate_archive_score` yields 50 there (the
access-frequency term contributes 0.3 and the dependency term 0.2 when
both inputs are zero). -/
theorem C1_counterexample :
    (exDatasetZero.calculate_archive_score).1 = 50
    ∧ ¬ (exDatasetZero.calculate_archive_score).1 = 0 := by
  constructor
  · norm_num [Dataset.calculate_archive_score, exDatasetZero, exDataset]
  · norm_num [Dataset.calculate_archive_score, exDatasetZero, exDataset]

/-- C1 (amended): a dataset with `days_since_access=180`,
`access_frequency_30d=0`, `dependencies=0`, `size_gb=500` scores 100,
and a dataset with all four inputs zero scores 50. -/
theorem C1_archive_score_formula :
    (∀ d : Dataset, d.days_since_access = 180 → d.access_frequency_30d = 0 →
        d.dependencies = 0 → d.size_gb = 500 → (d.calculate_archive_score).1 = 100)
    ∧ (∀ d : Dataset, d.days_since_access = 0 → d.access_frequency_30d = 0 →
        d.dependencies = 0 → d.size_gb = 0 → (d.calculate_archive_score).1 = 50) := by
  constructor <;>
    · intro d h1 h2 h3 h4
      norm_num [Dataset.calculate_archive_score, h1, h2, h3, h4]

/-- C1 witness: the amended formula evaluated at two concrete datasets. -/
theorem C1_archive_score_formula_witness :
    (exDatasetFull.calculate_archive_score).1 = 100
    ∧ (exDatasetZero.calculate_archive_score).1 = 50 :=
  ⟨C1_archive_score_formula.1 exDatasetFull rfl rfl rfl rfl,
   C1_archive_score_formula.2 exDatasetZero rfl rfl rfl rfl⟩

/-! ## Claim C5 — determinism and the single side effect of the score -/

/-- C5: recomputing the archive score with unchanged inputs returns the
same value, and each call's only effect on the entity is writing that
value into `archive_score`. -/
theorem C5_archive_score_deterministic :
    ∀ d : Dataset,
      (d.calculate_archive_score).2
          = { d with archive_score := some (d.calculate_archive_score).1 }
      ∧ ((d.calculate_archive_score).2.calculate_archive_score).1
          = (d.calculate_archive_score).1
      ∧ ((d.calculate_archive_score).2.calculate_archive_score).2
          = (d.calculate_archive_score).2 := by
  intro d
  exact ⟨rfl, rfl, rfl⟩

/-! ## Claim C9 — dataset construction validation -/

/-- C9: `Dataset.__post_init__` rejects exactly an invalid quality
status or a negative size; a dataset with negative `dependencies`,
`days_since_access` and `access_frequency_30d` passes validation. -/
theorem C9_dataset_validation :
    (∀ d : Dataset,
        (d.post_init).isOk = false ↔
          (d.quality_status ∉ ["Passed", "Failed", "Pending"] ∨ d.size_gb < 0))
    ∧ exDatasetNeg.post_init = Except.ok exDatasetNeg := by
  refine ⟨?_, rfl⟩
  intro d
  by_cases hq : d.quality_status ∈ ["Passed", "Failed", "Pending"]
  · by_cases hs : d.size_gb < 0
    · have hpe : d.post_init = Except.error "Size cannot be negative" := by
        unfold Dataset.post_init
        rw [if_neg (not_not_intro hq), if_pos hs]
      simp [hpe, Except.isOk, Except.toBool, hs]
    · have hpe : d.post_init = Except.ok d := by
        unfold Dataset.post_init
        rw [if_neg (not_not_intro hq), if_neg hs]
      simp [hpe, Except.isOk, Except.toBool, hq, hs]
  · have hpe : d.post_init = Except.error "Invalid quality status" := by
      unfold Dataset.post_init
      rw [if_pos hq]
    simp [hpe, Except.isOk, Except.toBool, hq]

/-! ## Claim C7 — dependency risk buckets -/

theorem riskFold_counts (l : List Dataset) (r0 : RiskLevels) :
    (l.foldl (fun r d =>
      if 3 ≤ d.dependencies then { r with high := r.high + 1 }
      else if 1 ≤ d.dependencies then { r with medium := r.medium + 1 }
      else { r with low := r.low + 1 }) r0)
    = ⟨r0.high + (l.countP fun d => decide (3 ≤ d.dependencies)),
       r0.medium + (l.countP fun d => decide (1 ≤ d.dependencies) && decide (d.dependencies < 3)),
       r0.low + (l.countP fun d => decide (d.dependencies < 1))⟩ := by
  induction l generalizing r0 with
  | nil => cases r0; simp
  | cons d rest ih =>
      rw [List.foldl_cons, ih]
      by_cases h3 : 3 ≤ d.dependencies
      · have h1 : 1 ≤ d.dependencies := by omega
        have hlt : ¬ d.dependencies < 3 := by omega
        have hlt1 : ¬ d.dependencies < 1 := by omega
        simp only [if_pos h3, List.countP_cons]
        simp [h3, h1, hlt, hlt1]
        omega
      · by_cases h1 : 1 ≤ d.dependencies
        · have hlt : d.dependencies < 3 := by omega
          have hlt1 : ¬ d.dependencies < 1 := by omega
          simp only [if_neg h3, if_pos h1, List.countP_cons]
          simp [h3, h1, hlt, hlt1]
          omega
        · have hlt1 : d.dependencies < 1 := by omega
          simp only [if_neg h3, if_neg h1, List.countP_cons]
          simp [h3, h1, hlt1]
          omega

theorem risk_counts_partition (l : List Dataset) :
    (l.countP fun d => decide (3 ≤ d.dependencies))
      + (l.countP fun d => decide (1 ≤ d.dependencies) && decide (d.dependencies < 3))
      + (l.countP fun d => decide (d.dependencies < 1)) = l.length := by
  induction l with
  | nil => simp
  | cons d rest ih =>
      simp only [List.countP_cons, List.length_cons]
      by_cases h3 : 3 ≤ d.dependencies
      · have h1 : 1 ≤ d.dependencies := by omega
        have hlt : ¬ d.dependencies < 3 := by omega
        have hlt1 : ¬ d.dependencies < 1 := by omega
        simp [h3, h1, hlt, hlt1]
        omega
      · by_cases h1 : 1 ≤ d.dependencies
        · have hlt : d.dependencies < 3 := by omega
          have hlt1 : ¬ d.dependencies < 1 := by omega
          simp [h3, h1, hlt, hlt1]
          omega
        · have hlt1 : d.dependencies < 1 := by omega
          simp [h3, h1, hlt1]
          omega

/-- C7 counterexample: a dataset with `dependencies = -1` is counted in
the Low bucket although its dependency count is not 0, so the claim's
bucket condition `dependencies == 0` does not describe the code. -/
theorem C7_counterexample :
    (get_dependency_analysis [{ exDataset with dependencies := -1 }]).risk_levels.low = 1
    ∧ ([{ exDataset with dependencies := -1 }].countP
        fun d => decide (d.dependencies = 0)) = 0 := by
  constructor
  · rfl
  · rfl

/-- C7 (amended): the buckets are High for `dependencies >= 3`, Medium
for `1 <= dependencies < 3` and Low for `dependencies <= 0`; they are
mutually exclusive and their counts sum to the snapshot size. -/
theorem C7_risk_buckets :
    ∀ datasets : List Dataset,
      (get_dependency_analysis datasets).risk_levels.high
          = datasets.countP (fun d => decide (3 ≤ d.dependencies))
      ∧ (get_dependency_analysis datasets).risk_levels.medium
          = datasets.countP (fun d => decide (1 ≤ d.dependencies) && decide (d.dependencies < 3))
      ∧ (get_dependency_analysis datasets).risk_levels.low
          = datasets.countP (fun d => decide (d.dependencies ≤ 0))
      ∧ (get_dependency_analysis datasets).risk_levels.high
          + (get_dependency_analysis datasets).risk_levels.medium
          + (get_dependency_analysis datasets).risk_levels.low
          = datasets.length := by
  intro datasets
  have hlow : (datasets.countP fun d => decide (d.dependencies < 1))
      = datasets.countP (fun d => decide (d.dependencies ≤ 0)) := by
    apply List.countP_congr
    intro d _
    show decide (d.dependencies < 1) = true ↔ decide (d.dependencies ≤ 0) = true
    simp only [decide_eq_true_eq]
    exact ⟨fun h => by omega, fun h => by omega⟩
  have h := riskFold_counts datasets ⟨0, 0, 0⟩
  have hra : (get_dependency_analysis datasets).risk_levels
      = datasets.foldl (fun r d =>
          if 3 ≤ d.dependencies then { r with high := r.high + 1 }
          else if 1 ≤ d.dependencies then { r with medium := r.medium + 1 }
          else { r with low := r.low + 1 }) ⟨0, 0, 0⟩ := rfl
  rw [hra, h]
  refine ⟨by simp, by simp, by simpa using hlow, ?_⟩
  simpa [hlow] using risk_counts_partition datasets

/-! ## Claim C2 — phishing surge windows -/

/-- C2: the recent window counts Phishing incidents with
`now - days <= date`, the previous window those with
`now - 2*days <= date < now - days`; an incident dated exactly
`now - days` lies in the recent window only, and the surge percentage
is `(recent - previous) / max(previous, 1) * 100`. -/
theorem C2_phishing_surge :
    ∀ (incidents : List SecurityIncident) (now days : ℤ), 0 < days →
      (get_phishing_surge_analysis incidents now days).recent_count
          = incidents.countP (fun i =>
              i.threat_category == "Phishing" && decide (now - days ≤ i.date))
      ∧ (get_phishing_surge_analysis incidents now days).previous_count
          = incidents.countP (fun i =>
              i.threat_category == "Phishing" && decide (now - 2 * days ≤ i.date)
                && decide (i.date < now - days))
      ∧ (∀ inc : SecurityIncident, inc.threat_category = "Phishing" →
            inc.date = now - days →
            (now - days ≤ inc.date
              ∧ ¬ (now - 2 * days ≤ inc.date ∧ inc.date < now - days)))
      ∧ (get_phishing_surge_analysis incidents now days).surge_percentage
          = (((get_phishing_surge_analysis incidents now days).recent_count : ℚ)
              - ((get_phishing_surge_analysis incidents now days).previous_count : ℚ))
            / max ((get_phishing_surge_analysis incidents now days).previous_count : ℚ) 1
            * 100 := by
  intro incidents now days _
  refine ⟨?_, ?_, ?_, ?_⟩
  · simp [get_phishing_surge_analysis, List.countP_eq_length_filter]
  · have : now - days * 2 = now - 2 * days := by ring
    simp [get_phishing_surge_analysis, List.countP_eq_length_filter, this]
  · intro inc _ hdate
    refine ⟨le_of_eq hdate.symm, ?_⟩
    rintro ⟨_, hlt⟩
    rw [hdate] at hlt
    exact lt_irrefl _ hlt
  · simp [get_phishing_surge_analysis, Nat.cast_max]

/-- C2 witness: the window characterisation evaluated on a one-incident
snapshot with `now = 100` and `days = 7`. -/
theorem C2_phishing_surge_witness :
    (0 : ℤ) < 7
    ∧ ((get_phishing_surge_analysis [exIncident] 100 7).recent_count
          = [exIncident].countP (fun i =>
              i.threat_category == "Phishing" && decide ((100 : ℤ) - 7 ≤ i.date))
      ∧ (get_phishing_surge_analysis [exIncident] 100 7).previous_count
          = [exIncident].countP (fun i =>
              i.threat_category == "Phishing" && decide ((100 : ℤ) - 2 * 7 ≤ i.date)
                && decide (i.date < 100 - 7))
      ∧ (∀ inc : SecurityIncident, inc.threat_category = "Phishing" →
            inc.date = 100 - 7 →
            ((100 : ℤ) - 7 ≤ inc.date
              ∧ ¬ ((100 : ℤ) - 2 * 7 ≤ inc.date ∧ inc.date < 100 - 7)))
      ∧ (get_phishing_surge_analysis [exIncident] 100 7).surge_percentage
          = (((get_phishing_surge_analysis [exIncident] 100 7).recent_count : ℚ)
              - ((get_phishing_surge_analysis [exIncident] 100 7).previous_count : ℚ))
            / max ((get_phishing_surge_analysis [exIncident] 100 7).previous_count : ℚ) 1
            * 100) :=
  ⟨by decide, C2_phishing_surge [exIncident] 100 7 (by decide)⟩

/-! ## Claim C10 — `get_all` returns a fresh shallow copy -/

theorem readCell_set_other (cells : List (List ℕ)) (a b : ℕ) (v : List ℕ)
    (hne : a ≠ b) : readCell (PyListHeap.mk (cells.set a v)) b
      = readCell (PyListHeap.mk cells) b := by
  simp [readCell, List.getD_eq_getElem?_getD, List.getElem?_set_ne hne]

/-- C10: `get_all` allocates a new list object whose elements are the
very entity references of the repository's list, and appending to or
removing from the returned list leaves the repository's list unchanged. -/
theorem C10_get_all_shallow_copy :
    ∀ (s : PyListHeap) (repo : ℕ), repo < s.cells.length →
      (repo_get_all s repo).2 ≠ repo
      ∧ readCell (repo_get_all s repo).1 (repo_get_all s repo).2 = readCell s repo
      ∧ (∀ x : ℕ, readCell (cellAppend (repo_get_all s repo).1 (repo_get_all s repo).2 x) repo
            = readCell s repo)
      ∧ (∀ x : ℕ, readCell (cellRemove (repo_get_all s repo).1 (repo_get_all s repo).2 x) repo
            = readCell s repo) := by
  intro s repo h
  have hfresh : s.cells.length ≠ repo := (Nat.ne_of_lt h).symm
  have hread₂ : readCell (repo_get_all s repo).1 (repo_get_all s repo).2 = readCell s repo := by
    simp [repo_get_all, readCell, List.getD_eq_getElem?_getD,
      List.getElem?_append_right (le_refl s.cells.length)]
  have hbase : readCell (repo_get_all s repo).1 repo = readCell s repo := by
    simp [repo_get_all, readCell, List.getD_eq_getElem?_getD,
      List.getElem?_append_left h]
  refine ⟨hfresh, hread₂, ?_, ?_⟩
  · intro x
    calc readCell (cellAppend (repo_get_all s repo).1 (repo_get_all s repo).2 x) repo
        = readCell (repo_get_all s repo).1 repo :=
          readCell_set_other _ _ _ _ hfresh
      _ = readCell s repo := hbase
  · intro x
    calc readCell (cellRemove (repo_get_all s repo).1 (repo_get_all s repo).2 x) repo
        = readCell (repo_get_all s repo).1 repo :=
          readCell_set_other _ _ _ _ hfresh
      _ = readCell s repo := hbase

/-- C10 witness: the copy semantics on a one-list heap. -/
theorem C10_get_all_shallow_copy_witness :
    (0 : ℕ) < (PyListHeap.mk [[5, 6]]).cells.length
    ∧ (repo_get_all ⟨[[5, 6]]⟩ 0).2 ≠ 0
    ∧ readCell (repo_get_all ⟨[[5, 6]]⟩ 0).1 (repo_get_all ⟨[[5, 6]]⟩ 0).2
        = readCell ⟨[[5, 6]]⟩ 0
    ∧ readCell (cellAppend (repo_get_all ⟨[[5, 6]]⟩ 0).1 (repo_get_all ⟨[[5, 6]]⟩ 0).2 7) 0
        = readCell ⟨[[5, 6]]⟩ 0
    ∧ readCell (cellRemove (repo_get_all ⟨[[5, 6]]⟩ 0).1 (repo_get_all ⟨[[5, 6]]⟩ 0).2 5) 0
        = readCell ⟨[[5, 6]]⟩ 0 :=
  ⟨by decide,
   (C10_get_all_shallow_copy ⟨[[5, 6]]⟩ 0 (by decide)).1,
   (C10_get_all_shallow_copy ⟨[[5, 6]]⟩ 0 (by decide)).2.1,
   (C10_get_all_shallow_copy ⟨[[5, 6]]⟩ 0 (by decide)).2.2.1 7,
   (C10_get_all_shallow_copy ⟨[[5, 6]]⟩ 0 (by decide)).2.2.2 5⟩

/-! ## Shared characterisation of the grouped-mean dictionaries -/

theorem foldl_accAdd_filter {β : Type} (l : List β) (p : β → Bool)
    (key : β → String) (val : β → ℚ) (acc : List (String × List ℚ)) :
    l.foldl (fun a i => if p i then accAdd a (key i) (val i) else a) acc
      = ((l.filter p).map fun i => (key i, val i)).foldl
          (fun a q => accAdd a q.1 q.2) acc := by
  induction l generalizing acc with
  | nil => rfl
  | cons i rest ih =>
      by_cases h : p i
      · simp [List.filter_cons, h, ih]
      · simp [List.filter_cons, h, ih]

theorem mem_groupAvg_iff {β : Type} (l : List β) (key : β → String) (val : β → ℚ)
    (s : String) (a : ℚ) :
    (s, a) ∈ ((groupPairs (l.map fun b => (key b, val b))).map
        fun p => (p.1, p.2.sum / (p.2.length : ℚ)))
      ↔ ((l.filter fun b => key b == s) ≠ []
        ∧ a = ((l.filter fun b => key b == s).map val).sum
            / (((l.filter fun b => key b == s).length : ℚ))) := by
  set ps := l.map fun b => (key b, val b) with hps
  have hvs0 : ((ps.filter fun p => p.1 == s).map Prod.snd)
      = ((l.filter fun b => key b == s).map val) := by
    rw [hps, List.filter_map, List.map_map]
    rfl
  constructor
  · intro h
    rcases List.mem_map.mp h with ⟨⟨c, vs⟩, hmem, heq⟩
    have hc : c = s := by
      have := congrArg Prod.fst heq
      simpa using this
    rw [hc] at hmem heq
    have ha : vs.sum / (vs.length : ℚ) = a := by
      have := congrArg Prod.snd heq
      simpa using this
    rcases (mem_groupPairs_iff _ _ _).mp hmem with ⟨hvs, hne⟩
    have hvs' : vs = (l.filter fun b => key b == s).map val := hvs.trans hvs0
    refine ⟨?_, ?_⟩
    · intro hnil
      exact hne (by rw [hvs', hnil]; rfl)
    · rw [← ha, hvs', List.length_map]
  · rintro ⟨hne, ha⟩
    apply List.mem_map.mpr
    refine ⟨(s, (ps.filter fun p => p.1 == s).map Prod.snd), ?_, ?_⟩
    · apply (mem_groupPairs_iff _ _ _).mpr
      refine ⟨rfl, ?_⟩
      rw [hvs0]
      intro hnil
      exact hne (List.map_eq_nil_iff.mp hnil)
    · have hval : ((ps.filter fun p => p.1 == s).map Prod.snd).sum
          / ((((ps.filter fun p => p.1 == s).map Prod.snd)).length : ℚ) = a := by
        rw [hvs0, List.length_map, ha]
      show (s, ((ps.filter fun p => p.1 == s).map Prod.snd).sum
          / ((((ps.filter fun p => p.1 == s).map Prod.snd)).length : ℚ)) = (s, a)
      rw [hval]

/-! ## Claim C4 — staff performance -/

/-- C4: over any snapshot of validated tickets with at least one
Resolved ticket, `get_staff_performance` computes per-staff means over
the resolved tickets, the team average as the unweighted mean of the
per-staff means, reports a slowest staff member whose mean is maximal,
with `gap_percentage = (slowest_avg - team_avg) / team_avg * 100` and 0
when the team average is zero; on the three-ticket scenario (A 10h,
A 20h, B 5h) it reports A mean 15, B mean 5, team average 10, slowest A,
gap 5h = 50%. -/
theorem C4_staff_performance :
    (∀ tickets : List ITTicket,
      (∀ t ∈ tickets, 0 ≤ t.total_resolution_time_hours) →
      (tickets.filter fun t => t.status == "Resolved") ≠ [] →
      ((∀ s a, (s, a) ∈ (get_staff_performance tickets).staff_performance ↔
          (((tickets.filter fun t => t.status == "Resolved").filter
              fun t => t.assigned_staff == s) ≠ []
            ∧ a = (((tickets.filter fun t => t.status == "Resolved").filter
                  fun t => t.assigned_staff == s).map
                    fun t => t.total_resolution_time_hours).sum
                / ((((tickets.filter fun t => t.status == "Resolved").filter
                    fun t => t.assigned_staff == s).length : ℚ))))
        ∧ (get_staff_performance tickets).team_average
            = some ((((get_staff_performance tickets).staff_performance.map Prod.snd).sum)
                / (((get_staff_performance tickets).staff_performance.length : ℚ)))
        ∧ ∃ g, (get_staff_performance tickets).slowest_staff = some g
            ∧ (g.staff, g.avg_time) ∈ (get_staff_performance tickets).staff_performance
            ∧ (∀ p ∈ (get_staff_performance tickets).staff_performance, p.2 ≤ g.avg_time)
            ∧ g.team_avg = (((get_staff_performance tickets).staff_performance.map Prod.snd).sum)
                / (((get_staff_performance tickets).staff_performance.length : ℚ))
            ∧ g.gap_hours = g.avg_time - g.team_avg
            ∧ g.gap_percentage = (g.avg_time - g.team_avg) / g.team_avg * 100
            ∧ (g.team_avg = 0 → g.gap_percentage = 0)))
    ∧ get_staff_performance [exTicketA1, exTicketA2, exTicketB]
        = ⟨[("A", 15), ("B", 5)], some ⟨"A", 15, 10, 5, 50⟩, some 10⟩ := by
  constructor
  · intro tickets h hne
    set resolved := tickets.filter fun t => t.status == "Resolved" with hres
    have hie : ¬ (resolved.isEmpty = true) := by
      simpa [List.isEmpty_iff] using hne
    set ps := resolved.map fun t => (t.assigned_staff, t.total_resolution_time_hours)
      with hpsd
    set groups := groupPairs ps with hgrd
    set staff_avg := groups.map fun p => (p.1, p.2.sum / (p.2.length : ℚ)) with hsad
    set team := ((staff_avg.map Prod.snd).sum) / ((staff_avg.length : ℚ)) with htmd
    have hgsp : get_staff_performance tickets
        = ⟨staff_avg,
           some ⟨(pyMax2 staff_avg).1, (pyMax2 staff_avg).2, team,
                 (pyMax2 staff_avg).2 - team,
                 if 0 < team then ((pyMax2 staff_avg).2 - team) / team * 100 else 0⟩,
           some team⟩ := by
      simp only [get_staff_performance]
      rw [← hres, if_neg hie, ← hpsd, ← hgrd, ← hsad, ← htmd]
    have hmem_iff : ∀ s a, (s, a) ∈ staff_avg ↔
        ((resolved.filter fun t => t.assigned_staff == s) ≠ []
          ∧ a = ((resolved.filter fun t => t.assigned_staff == s).map
                fun t => t.total_resolution_time_hours).sum
              / (((resolved.filter fun t => t.assigned_staff == s).length : ℚ))) := by
      intro s a
      rw [hsad, hgrd, hpsd]
      exact mem_groupAvg_iff resolved (fun t => t.assigned_staff)
        (fun t => t.total_resolution_time_hours) s a
    have havg_nonneg : ∀ p ∈ staff_avg, 0 ≤ p.2 := by
      rintro ⟨s, a⟩ hp
      rcases (hmem_iff s a).mp hp with ⟨_, ha⟩
      rw [ha]
      apply div_nonneg
      · apply List.sum_nonneg
        intro x hx
        rcases List.mem_map.mp hx with ⟨t, ht, rfl⟩
        have ht1 : t ∈ resolved := (List.mem_filter.mp ht).1
        have ht2 : t ∈ tickets := by
          rw [hres] at ht1
          exact (List.mem_filter.mp ht1).1
        exact h t ht2
      · exact Nat.cast_nonneg _
    have hteam_nonneg : 0 ≤ team := by
      rw [htmd]
      apply div_nonneg
      · apply List.sum_nonneg
        intro x hx
        rcases List.mem_map.mp hx with ⟨p, hp, rfl⟩
        exact havg_nonneg p hp
      · exact Nat.cast_nonneg _
    have hsane : staff_avg ≠ [] := by
      rw [hsad]
      intro hnil
      have hg : groups = [] := List.map_eq_nil_iff.mp hnil
      rw [hgrd] at hg
      have hpse : ps = [] := (groupPairs_eq_nil_iff ps).mp hg
      rw [hpsd] at hpse
      exact hne (List.map_eq_nil_iff.mp hpse)
    obtain ⟨x, rest, hxr⟩ := List.exists_cons_of_ne_nil hsane
    have hmax := pyMax2_spec x rest
    rw [← hxr] at hmax
    refine ⟨?_, ?_, ?_⟩
    · intro s a
      rw [hgsp]
      exact hmem_iff s a
    · rw [hgsp]
    · refine ⟨⟨(pyMax2 staff_avg).1, (pyMax2 staff_avg).2, team,
          (pyMax2 staff_avg).2 - team,
          if 0 < team then ((pyMax2 staff_avg).2 - team) / team * 100 else 0⟩,
        by rw [hgsp], ?_, ?_, ?_, rfl, ?_, ?_⟩
      · rw [hgsp]
        show ((pyMax2 staff_avg).1, (pyMax2 staff_avg).2) ∈ staff_avg
        rw [Prod.mk.eta]
        exact hmax.1
      · rw [hgsp]
        exact hmax.2
      · rw [hgsp]
      · show (if 0 < team then ((pyMax2 staff_avg).2 - team) / team * 100 else 0)
            = ((pyMax2 staff_avg).2 - team) / team * 100
        by_cases ht : 0 < team
        · rw [if_pos ht]
        · have h0 : team = 0 := le_antisymm (not_lt.mp ht) hteam_nonneg
          rw [if_neg ht, h0, div_zero, zero_mul]
      · intro h0
        have h0' : team = 0 := h0
        show (if 0 < team then ((pyMax2 staff_avg).2 - team) / team * 100 else 0) = 0
        rw [if_neg (by rw [h0']; exact lt_irrefl 0)]
  · norm_num [get_staff_performance, groupPairs, accAdd, pyMax2,
      exTicketA1, exTicketA2, exTicketB, exTicket, List.filter,
      (show ¬ ("A" : String) = "B" by decide), (show ¬ ("B" : String) = "A" by decide)]

/-- C4 witness: hypotheses and the team-average component on the
three-ticket scenario. -/
theorem C4_staff_performance_witness :
    (∀ t ∈ [exTicketA1, exTicketA2, exTicketB], 0 ≤ t.total_resolution_time_hours)
    ∧ ([exTicketA1, exTicketA2, exTicketB].filter fun t => t.status == "Resolved") ≠ []
    ∧ (get_staff_performance [exTicketA1, exTicketA2, exTicketB]).team_average
        = some ((((get_staff_performance [exTicketA1, exTicketA2, exTicketB]).staff_performance.map
              Prod.snd).sum)
            / (((get_staff_performance [exTicketA1, exTicketA2, exTicketB]).staff_performance.length
              : ℚ))) :=
  ⟨by decide, by decide,
   (C4_staff_performance.1 [exTicketA1, exTicketA2, exTicketB] (by decide) (by decide)).2.1⟩

/-! ## Claim C6 — resolution bottleneck -/

/-- C6 counterexample: an incident that is Resolved with a present
resolution time of `0.0` is dropped by the truthiness test
`if incident.resolution_time_hours:`, so the function returns `none`
although a resolved incident with a (present) resolution time exists. -/
theorem C6_counterexample :
    exIncident.status = "Resolved"
    ∧ exIncident.resolution_time_hours = some 0
    ∧ (exIncident.resolution_time_hours).isSome = true
    ∧ get_resolution_bottleneck [exIncident] = none := by
  refine ⟨rfl, rfl, rfl, ?_⟩
  rfl

/-- C6 (amended): `get_resolution_bottleneck` considers exactly the
incidents with status Resolved and a present, nonzero
`resolution_time_hours`; it groups them by `threat_category`, computes
the mean resolution time per category, and returns the category with
the maximum mean together with the full per-category mean mapping; it
returns `none` exactly when no considered incident exists. -/
theorem C6_resolution_bottleneck :
    ∀ incidents : List SecurityIncident,
      (get_resolution_bottleneck incidents = none ↔
        (incidents.filter fun i =>
          i.status == "Resolved" && pyTruthy i.resolution_time_hours) = [])
      ∧ ∀ b, get_resolution_bottleneck incidents = some b →
          ((∀ c a, (c, a) ∈ b.all_averages ↔
              (((incidents.filter fun i =>
                    i.status == "Resolved" && pyTruthy i.resolution_time_hours).filter
                  fun i => i.threat_category == c) ≠ []
                ∧ a = (((incidents.filter fun i =>
                      i.status == "Resolved" && pyTruthy i.resolution_time_hours).filter
                    fun i => i.threat_category == c).map
                      fun i => i.resolution_time_hours.getD 0).sum
                    / ((((incidents.filter fun i =>
                        i.status == "Resolved" && pyTruthy i.resolution_time_hours).filter
                      fun i => i.threat_category == c).length : ℚ))))
            ∧ (b.category, b.avg_resolution_time) ∈ b.all_averages
            ∧ ∀ p ∈ b.all_averages, p.2 ≤ b.avg_resolution_time) := by
  intro incidents
  set resolved := incidents.filter fun i => i.status == "Resolved" with hres
  set considered := incidents.filter fun i =>
      i.status == "Resolved" && pyTruthy i.resolution_time_hours with hcond
  have hcc : resolved.filter (fun i => pyTruthy i.resolution_time_hours) = considered := by
    rw [hres, hcond, List.filter_filter]
    apply List.filter_congr
    intro i _
    exact Bool.and_comm _ _
  set grp := groupPairs (considered.map fun i =>
      (i.threat_category, i.resolution_time_hours.getD 0)) with hgrp
  have h1 := foldl_accAdd_filter resolved (fun i => pyTruthy i.resolution_time_hours)
    (fun i => i.threat_category) (fun i => i.resolution_time_hours.getD 0) []
  have h2 : ((resolved.filter fun i => pyTruthy i.resolution_time_hours).map
        fun i => (i.threat_category, i.resolution_time_hours.getD 0)).foldl
          (fun a q => accAdd a q.1 q.2) [] = grp := by
    rw [hcc, hgrp]
    rfl
  have hfold : (resolved.foldl (fun acc inc =>
      if pyTruthy inc.resolution_time_hours then
        accAdd acc inc.threat_category (inc.resolution_time_hours.getD 0)
      else acc) []) = grp := h1.trans h2
  have hgrb : get_resolution_bottleneck incidents
      = (if resolved.isEmpty then none else
          if grp.isEmpty then none
          else some ⟨(pyMax2 (grp.map fun p => (p.1, p.2.sum / (p.2.length : ℚ)))).1,
                     (pyMax2 (grp.map fun p => (p.1, p.2.sum / (p.2.length : ℚ)))).2,
                     grp.map fun p => (p.1, p.2.sum / (p.2.length : ℚ))⟩) := by
    simp only [get_resolution_bottleneck]
    rw [← hres, hfold]
  by_cases hrese : resolved = []
  · have hcone : considered = [] := by
      rw [← hcc, hrese]
      rfl
    have hnone : get_resolution_bottleneck incidents = none := by
      rw [hgrb, hrese]
      rfl
    refine ⟨by rw [hnone, hcone]; exact iff_of_true rfl rfl, ?_⟩
    intro b hb
    rw [hnone] at hb
    cases hb
  · have hie : resolved.isEmpty = false := by
      simpa [List.isEmpty_iff] using hrese
    by_cases hce : considered = []
    · have hgrpe : grp = [] := by
        rw [hgrp, hce]
        rfl
      have hnone : get_resolution_bottleneck incidents = none := by
        rw [hgrb, hie, hgrpe]
        rfl
      refine ⟨by rw [hnone, hce]; exact iff_of_true rfl rfl, ?_⟩
      intro b hb
      rw [hnone] at hb
      cases hb
    · have hgrpne : grp ≠ [] := by
        rw [hgrp]
        intro hg
        have := (groupPairs_eq_nil_iff _).mp hg
        exact hce (List.map_eq_nil_iff.mp this)
      have hgie : grp.isEmpty = false := by
        simpa [List.isEmpty_iff] using hgrpne
      set avgs := grp.map fun p => (p.1, p.2.sum / (p.2.length : ℚ)) with havgs
      have hsome : get_resolution_bottleneck incidents
          = some ⟨(pyMax2 avgs).1, (pyMax2 avgs).2, avgs⟩ := by
        rw [hgrb, hie, hgie]
        rfl
      have havgne : avgs ≠ [] := by
        rw [havgs]
        intro hg
        exact hgrpne (List.map_eq_nil_iff.mp hg)
      obtain ⟨x, rest, hxr⟩ := List.exists_cons_of_ne_nil havgne
      have hmax := pyMax2_spec x rest
      rw [← hxr] at hmax
      constructor
      · rw [hsome]
        constructor
        · intro hc
          cases hc
        · intro hc
          exact absurd hc hce
      · intro b hb
        rw [hsome] at hb
        obtain rfl := (Option.some.inj hb).symm
        refine ⟨?_, ?_, ?_⟩
        · intro c a
          show (c, a) ∈ avgs ↔ _
          rw [havgs, hgrp]
          exact mem_groupAvg_iff considered (fun i => i.threat_category)
            (fun i => i.resolution_time_hours.getD 0) c a
        · show ((pyMax2 avgs).1, (pyMax2 avgs).2) ∈ avgs
          rw [Prod.mk.eta]
          exact hmax.1
        · exact hmax.2

/-- C6 witness: the characterisation evaluated on a snapshot with one
resolved incident whose resolution time is 4 hours. -/
theorem C6_resolution_bottleneck_witness :
    get_resolution_bottleneck [exIncidentR] = some ⟨"Phishing", 4, [("Phishing", 4)]⟩
    ∧ ("Phishing", (4 : ℚ)) ∈ [("Phishing", (4 : ℚ))] := by
  have h : get_resolution_bottleneck [exIncidentR]
      = some ⟨"Phishing", 4, [("Phishing", 4)]⟩ := by
    simp [get_resolution_bottleneck, accAdd, pyMax2, pyTruthy,
      exIncidentR, exIncident, List.filter]
  exact ⟨h, ((C6_resolution_bottleneck [exIncidentR]).2 _ h).2.1⟩

/-! ## Claim C3 — process-stage bottleneck -/

/-- C3 counterexample: a zero-valued `stage_times` entry is counted by
the code, so the per-stage average is taken over all entries (here
`(10 + 0) / 2 = 5`) while the claim's mean over tickets with a nonzero
entry for the stage is `10 / 1 = 10`; moreover, with a negative total
the code reports `percentage = 0` while the claim's unguarded formula
gives `(-1) / (-1) * 100 = 100`. -/
theorem C3_counterexample :
    get_process_bottleneck [exTicketStage1, exTicketStage2]
        = some ⟨"A", 5, 10, 100, [("A", 5)]⟩
    ∧ ([exTicketStage1, exTicketStage2].filter
        fun t => decide (t.get_time_in_stage "A" ≠ 0)) = [exTicketStage1]
    ∧ ((([exTicketStage1, exTicketStage2].filter
          fun t => decide (t.get_time_in_stage "A" ≠ 0)).map
            fun t => t.get_time_in_stage "A").sum
        / ((([exTicketStage1, exTicketStage2].filter
            fun t => decide (t.get_time_in_stage "A" ≠ 0)).length : ℚ))) = 10
    ∧ ¬ ((5 : ℚ) = 10)
    ∧ get_process_bottleneck [exTicketStageNeg] = some ⟨"A", -1, -1, 0, [("A", -1)]⟩
    ∧ ¬ ((-1 : ℚ) / (-1 : ℚ) * 100 = 0) := by
  refine ⟨?_, ?_, ?_, by norm_num, ?_, by norm_num⟩
  · norm_num [get_process_bottleneck, groupPairs, accAdd, getVals, pyMax2,
      exTicketStage1, exTicketStage2, exTicket, List.filter]
  · norm_num [ITTicket.get_time_in_stage, exTicketStage1, exTicketStage2, exTicket,
      List.filter, List.find?]
  · norm_num [ITTicket.get_time_in_stage, exTicketStage1, exTicketStage2, exTicket,
      List.filter, List.find?]
  · norm_num [get_process_bottleneck, groupPairs, accAdd, getVals, pyMax2,
      exTicketStageNeg, exTicket, List.filter]

/-- C3 (amended): `get_process_bottleneck` computes for each stage the
mean hours over the `stage_times` entries present for that stage
(zero-valued entries included), returns the stage with the maximum mean
together with `percentage = stage_total / Σ(all stage totals) * 100`
when that denominator is positive and 0 otherwise, and returns `none`
exactly when no ticket carries any stage-time entries. -/
theorem C3_process_bottleneck :
    ∀ tickets : List ITTicket,
      (get_process_bottleneck tickets = none ↔
        (tickets.flatMap fun t => t.stage_times) = [])
      ∧ ∀ b, get_process_bottleneck tickets = some b →
          ((∀ s a, (s, a) ∈ b.all_stages ↔
              (((tickets.flatMap fun t => t.stage_times).filter
                  fun p => p.1 == s) ≠ []
                ∧ a = (((tickets.flatMap fun t => t.stage_times).filter
                      fun p => p.1 == s).map Prod.snd).sum
                    / ((((tickets.flatMap fun t => t.stage_times).filter
                      fun p => p.1 == s).length : ℚ))))
            ∧ (b.stage, b.avg_time) ∈ b.all_stages
            ∧ (∀ p ∈ b.all_stages, p.2 ≤ b.avg_time)
            ∧ b.total_time = (((tickets.flatMap fun t => t.stage_times).filter
                  fun p => p.1 == b.stage).map Prod.snd).sum
            ∧ b.percentage = (if 0 < ((tickets.flatMap fun t => t.stage_times).map Prod.snd).sum
                then b.total_time
                    / ((tickets.flatMap fun t => t.stage_times).map Prod.snd).sum * 100
                else 0)) := by
  intro tickets
  set ps := tickets.flatMap fun t => t.stage_times with hps
  have hid : ps.map (fun p => (p.1, p.2)) = ps := by
    simp
  set grp := groupPairs ps with hgrp
  have hvsum : ((grp.map fun g => g.2.sum).sum) = (ps.map Prod.snd).sum := by
    rw [hgrp]
    exact valsSum_groupPairs ps
  by_cases hte : tickets = []
  · have hpse : ps = [] := by rw [hps, hte]; rfl
    have hnone : get_process_bottleneck tickets = none := by
      rw [hte]
      rfl
    refine ⟨by rw [hnone, hpse]; exact iff_of_true rfl rfl, ?_⟩
    intro b hb
    rw [hnone] at hb
    cases hb
  · have htie : tickets.isEmpty = false := by
      simpa [List.isEmpty_iff] using hte
    have hgpb : get_process_bottleneck tickets
        = (if grp.isEmpty then none
            else some ⟨(pyMax2 (grp.map fun p => (p.1, p.2.sum / (p.2.length : ℚ)))).1,
                       (pyMax2 (grp.map fun p => (p.1, p.2.sum / (p.2.length : ℚ)))).2,
                       (getVals grp (pyMax2 (grp.map fun p =>
                           (p.1, p.2.sum / (p.2.length : ℚ)))).1).sum,
                       if 0 < ((grp.map fun g => g.2.sum).sum)
                       then (getVals grp (pyMax2 (grp.map fun p =>
                             (p.1, p.2.sum / (p.2.length : ℚ)))).1).sum
                           / ((grp.map fun g => g.2.sum).sum) * 100
                       else 0,
                       grp.map fun p => (p.1, p.2.sum / (p.2.length : ℚ))⟩) := by
      simp only [get_process_bottleneck, htie, Bool.false_eq_true, if_false]
    by_cases hpse : ps = []
    · have hgrpe : grp = [] := by
        rw [hgrp, hpse]
        rfl
      have hnone : get_process_bottleneck tickets = none := by
        rw [hgpb, hgrpe]
        rfl
      refine ⟨by rw [hnone, hpse]; exact iff_of_true rfl rfl, ?_⟩
      intro b hb
      rw [hnone] at hb
      cases hb
    · have hgrpne : grp ≠ [] := by
        rw [hgrp]
        exact fun hg => hpse ((groupPairs_eq_nil_iff _).mp hg)
      have hgie : grp.isEmpty = false := by
        simpa [List.isEmpty_iff] using hgrpne
      set avgs := grp.map fun p => (p.1, p.2.sum / (p.2.length : ℚ)) with havgs
      have hsome : get_process_bottleneck tickets
          = some ⟨(pyMax2 avgs).1, (pyMax2 avgs).2,
                  (getVals grp (pyMax2 avgs).1).sum,
                  if 0 < ((grp.map fun g => g.2.sum).sum)
                  then (getVals grp (pyMax2 avgs).1).sum
                      / ((grp.map fun g => g.2.sum).sum) * 100
                  else 0,
                  avgs⟩ := by
        rw [hgpb, hgie]
        rfl
      have havgne : avgs ≠ [] := by
        rw [havgs]
        exact fun hg => hgrpne (List.map_eq_nil_iff.mp hg)
      obtain ⟨x, rest, hxr⟩ := List.exists_cons_of_ne_nil havgne
      have hmax := pyMax2_spec x rest
      rw [← hxr] at hmax
      have hgv : getVals grp (pyMax2 avgs).1
          = ((ps.filter fun p => p.1 == (pyMax2 avgs).1).map Prod.snd) := by
        rw [hgrp]
        exact getVals_groupPairs ps (pyMax2 avgs).1
      constructor
      · rw [hsome]
        constructor
        · intro hc
          cases hc
        · intro hc
          exact absurd hc hpse
      · intro b hb
        rw [hsome] at hb
        obtain rfl := (Option.some.inj hb).symm
        refine ⟨?_, ?_, ?_, ?_, ?_⟩
        · intro s a
          show (s, a) ∈ avgs ↔ _
          rw [havgs, hgrp]
          have hmem := mem_groupAvg_iff ps Prod.fst Prod.snd s a
          rw [hid] at hmem
          exact hmem
        · show ((pyMax2 avgs).1, (pyMax2 avgs).2) ∈ avgs
          rw [Prod.mk.eta]
          exact hmax.1
        · exact hmax.2
        · exact congrArg List.sum hgv
        · show (if 0 < ((grp.map fun g => g.2.sum).sum)
              then (getVals grp (pyMax2 avgs).1).sum
                  / ((grp.map fun g => g.2.sum).sum) * 100
              else 0) = _
          rw [hvsum, hgv]

/-- C3 witness: the characterisation evaluated on a one-ticket snapshot
with a single ten-hour stage entry. -/
theorem C3_process_bottleneck_witness :
    get_process_bottleneck [exTicketStage1] = some ⟨"A", 10, 10, 100, [("A", 10)]⟩
    ∧ ("A", (10 : ℚ)) ∈ [("A", (10 : ℚ))] := by
  have h : get_process_bottleneck [exTicketStage1]
      = some ⟨"A", 10, 10, 100, [("A", 10)]⟩ := by
    norm_num [get_process_bottleneck, groupPairs, accAdd, getVals, pyMax2,
      exTicketStage1, exTicket, List.filter]
  exact ⟨h, ((C3_process_bottleneck [exTicketStage1]).2 _ h).2.1⟩

/-! ## Claim C8 — stable descending sorts of the repository -/

theorem sorted_pair_sublist {α : Type} {r : α → α → Prop} [IsTotal α r]
    {l : List α} {a b : α} (hs : l.Sorted r) (ha : a ∈ l) (hb : b ∈ l)
    (hna : ¬ r b a) : List.Sublist [a, b] l := by
  induction l with
  | nil => cases ha
  | cons x t ih =>
      rcases List.mem_cons.mp ha with rfl | hat
      · rcases List.mem_cons.mp hb with he | hbt
        · rw [he] at hna
          exact absurd ((IsTotal.total a a).elim id id) hna
        · exact List.Sublist.cons₂ a (List.singleton_sublist.mpr hbt)
      · rcases List.mem_cons.mp hb with rfl | hbt
        · exact absurd (List.rel_of_sorted_cons hs a hat) hna
        · exact List.Sublist.cons x (ih hs.of_cons hat hbt)

theorem pyKeySortDesc_stable {α : Type} (key : α → ℚ) (xs : List α)
    (i j : ℕ) (hij : i < j) (hj : j < xs.length)
    (hkey : key (xs.get ⟨i, lt_trans hij hj⟩) = key (xs.get ⟨j, hj⟩)) :
    List.Sublist [(i, xs.get ⟨i, lt_trans hij hj⟩), (j, xs.get ⟨j, hj⟩)]
      (pyKeySortDesc key xs) := by
  have hi' : i < xs.enum.length := by rw [List.enum_length]; exact lt_trans hij hj
  have hj' : j < xs.enum.length := by rw [List.enum_length]; exact hj
  have hgi : xs.enum.get ⟨i, hi'⟩ = (i, xs.get ⟨i, lt_trans hij hj⟩) := by
    rw [List.get_eq_getElem, List.getElem_enum]
    rfl
  have hgj : xs.enum.get ⟨j, hj'⟩ = (j, xs.get ⟨j, hj⟩) := by
    rw [List.get_eq_getElem, List.getElem_enum]
    rfl
  have hmi : (i, xs.get ⟨i, lt_trans hij hj⟩) ∈ xs.enum :=
    hgi ▸ List.get_mem xs.enum i hi'
  have hmj : (j, xs.get ⟨j, hj⟩) ∈ xs.enum :=
    hgj ▸ List.get_mem xs.enum j hj'
  have hperm := List.perm_insertionSort (keyOrd key) xs.enum
  have hs := List.sorted_insertionSort (keyOrd key) xs.enum
  have hna : ¬ keyOrd key (j, xs.get ⟨j, hj⟩) (i, xs.get ⟨i, lt_trans hij hj⟩) := by
    intro h
    rcases h with h | ⟨_, hle⟩
    · rw [hkey] at h
      exact lt_irrefl _ h
    · omega
  exact sorted_pair_sublist hs (hperm.mem_iff.mpr hmi) (hperm.mem_iff.mpr hmj) hna

/-- C8: `get_top_consumers` and `get_archive_candidates` are stable
descending sorts truncated to the limit: two snapshot entries with
equal sort keys keep their original relative order in the sorted
sequence, and on sizes [500, 100, 500, 50] the top two consumers are
the first and third datasets in that order. -/
theorem C8_stable_sort_orders :
    (∀ (xs : List Dataset) (limit : ℕ),
        get_top_consumers xs limit
          = ((pyKeySortDesc (fun d => d.size_gb) xs).map Prod.snd).take limit)
    ∧ (∀ (xs : List Dataset) (i j : ℕ) (hij : i < j) (hj : j < xs.length),
        (xs.get ⟨i, lt_trans hij hj⟩).size_gb = (xs.get ⟨j, hj⟩).size_gb →
        List.Sublist [(i, xs.get ⟨i, lt_trans hij hj⟩), (j, xs.get ⟨j, hj⟩)]
          (pyKeySortDesc (fun d => d.size_gb) xs))
    ∧ (∀ (xs : List Dataset) (limit : ℕ),
        (get_archive_candidates xs limit).1
          = ((pyKeySortDesc (fun d => d.archive_score.getD 0) (xs.map fillScore)).map
              Prod.snd).take limit)
    ∧ (∀ (ys : List Dataset) (i j : ℕ) (hij : i < j) (hj : j < ys.length),
        (ys.get ⟨i, lt_trans hij hj⟩).archive_score.getD 0
            = (ys.get ⟨j, hj⟩).archive_score.getD 0 →
        List.Sublist [(i, ys.get ⟨i, lt_trans hij hj⟩), (j, ys.get ⟨j, hj⟩)]
          (pyKeySortDesc (fun d => d.archive_score.getD 0) ys))
    ∧ get_top_consumers [exD500a, exD100, exD500b, exD50] 2 = [exD500a, exD500b] := by
  refine ⟨fun xs limit => rfl, ?_, fun xs limit => rfl, ?_, ?_⟩
  · intro xs i j hij hj hkey
    exact pyKeySortDesc_stable (fun d => d.size_gb) xs i j hij hj hkey
  · intro ys i j hij hj hkey
    exact pyKeySortDesc_stable (fun d => d.archive_score.getD 0) ys i j hij hj hkey
  · decide

/-- C8 witness: stability applied to the concrete snapshot with sizes
[500, 100, 500, 50] at the two equal-key positions 0 and 2. -/
theorem C8_stable_sort_orders_witness :
    (0 : ℕ) < 2
    ∧ (2 : ℕ) < ([exD500a, exD100, exD500b, exD50] : List Dataset).length
    ∧ List.Sublist [(0, exD500a), (2, exD500b)]
        (pyKeySortDesc (fun d => d.size_gb) [exD500a, exD100, exD500b, exD50]) :=
  ⟨by decide, by decide,
   C8_stable_sort_orders.2.1 [exD500a, exD100, exD500b, exD50] 0 2
     (by decide) (by decide) (by decide)⟩

end CW2
